import Mathlib

/-!
Verification of the robot-navigation simulator: a shallow embedding of the
kinematic vehicle model (`robot_model.py`), the Stanley-style controller
(`controller.py`), the A*-based path planner (`path_planner.py`), the
footprint collision check and the simulation loop (`main.py`), together with
theorems settling the specified behavioural claims.

Python floats are modelled by `ℝ`; `int(...)` truncation by `pyInt`;
`np.clip` by `clip`; `np.arctan2` by `atan2`; dictionaries by functions into
`Option`; the unbounded `while` loops of the search and of path
reconstruction by fuel-indexed recursion (`none` = fuel exhausted, which has
no Python counterpart).
-/

open Real

abbrev Pt : Type := ℝ × ℝ

/-- Python `int(x)` on a float: truncation toward zero. -/
noncomputable def pyInt (x : ℝ) : ℤ := if 0 ≤ x then ⌊x⌋ else ⌈x⌉

/-- `np.clip(x, lo, hi)`: `np.minimum(hi, np.maximum(lo, x))`. -/
noncomputable def clip (x lo hi : ℝ) : ℝ := min (max x lo) hi

/-- `np.arctan2 y x` (four-quadrant arctangent, standard conventions). -/
noncomputable def atan2 (y x : ℝ) : ℝ :=
  if 0 < x then Real.arctan (y / x)
  else if x < 0 then
    (if 0 ≤ y then Real.arctan (y / x) + π else Real.arctan (y / x) - π)
  else (if 0 < y then π / 2 else if y < 0 then -(π / 2) else 0)

/-- Componentwise difference of 2-D points. -/
def ptSub (a b : Pt) : Pt := (a.1 - b.1, a.2 - b.2)

/-- 2-D dot product. -/
def dot2 (a b : Pt) : ℝ := a.1 * b.1 + a.2 * b.2

/-- `np.cross` of two 2-D vectors (scalar z-component). -/
def cross2 (a b : Pt) : ℝ := a.1 * b.2 - a.2 * b.1

/-- `np.linalg.norm` of a 2-D vector. -/
noncomputable def norm2 (a : Pt) : ℝ := Real.sqrt (a.1 ^ 2 + a.2 ^ 2)

/-- Vehicle state plus physical constants (`robot_model.py`, class fields). -/
structure RobotModel where
  x : ℝ
  y : ℝ
  yaw : ℝ
  velocity : ℝ
  length : ℝ
  width : ℝ
  max_velocity : ℝ
  min_velocity : ℝ
  max_acceleration : ℝ
  max_steering_angle : ℝ

/-- `RobotModel.__init__`: position/heading/size from configuration, velocity
starts at `0`, constants `max_velocity = 80`, `min_velocity = -20`,
`max_acceleration = 30`, `max_steering_angle = π/4`. -/
noncomputable def RobotModel.init (x y yaw length width : ℝ) : RobotModel :=
  ⟨x, y, yaw, 0, length, width, 80, -20, 30, π / 4⟩

/-- `RobotModel.update`: exact two-phase constant-acceleration integrator.
The Python code computes `t_max = (max_velocity - velocity)/a` for `a > 0`,
`(min_velocity - velocity)/a` for `a < 0` and `+∞` for `a = 0`, then branches
on `dt ≤ t_max`; the `a = 0` disjunct below is that always-true comparison
against `+∞`. -/
noncomputable def RobotModel.update (r : RobotModel)
    (acceleration steering_angle dt : ℝ) : RobotModel :=
  let a := clip acceleration (-r.max_acceleration) r.max_acceleration
  let steer := clip steering_angle (-r.max_steering_angle) r.max_steering_angle
  if (0 < a ∧ dt ≤ (r.max_velocity - r.velocity) / a) ∨
     (a < 0 ∧ dt ≤ (r.min_velocity - r.velocity) / a) ∨ a = 0 then
    -- velocity bound not reached within this tick: single-phase integration
    let v_end := r.velocity + a * dt
    let accel_distance := r.velocity * dt + 0.5 * a * dt ^ 2
    let delta_yaw := accel_distance / r.length * Real.tan steer
    let avg_yaw := r.yaw + delta_yaw / 2
    { r with
      x := r.x + accel_distance * Real.cos avg_yaw
      y := r.y + accel_distance * Real.sin avg_yaw
      yaw := r.yaw + delta_yaw
      velocity := v_end }
  else
    -- bound reached mid-tick: accelerate for t_max, then constant speed
    let v_end := if 0 < a then r.max_velocity else r.min_velocity
    let t_max := if 0 < a then (r.max_velocity - r.velocity) / a
                 else (r.min_velocity - r.velocity) / a
    let remaining_time := dt - t_max
    let constant_distance := v_end * remaining_time
    let accel_distance := r.velocity * t_max + 0.5 * a * t_max ^ 2
    let delta_yaw := (accel_distance + constant_distance) / r.length * Real.tan steer
    let avg_yaw := r.yaw + delta_yaw / 2
    { r with
      x := r.x + accel_distance * Real.cos avg_yaw
          + constant_distance * Real.cos (r.yaw + delta_yaw)
      y := r.y + accel_distance * Real.sin avg_yaw
          + constant_distance * Real.sin (r.yaw + delta_yaw)
      yaw := r.yaw + delta_yaw
      velocity := v_end }

/-- Index of the first minimal element (`np.argmin`), accumulator form. -/
noncomputable def argminAux : List ℝ → ℕ → ℕ → ℝ → ℕ
  | [], _, best, _ => best
  | v :: rest, i, best, bestVal =>
    if v < bestVal then argminAux rest (i + 1) i v
    else argminAux rest (i + 1) best bestVal

/-- `np.argmin` over a list of floats: index of the first occurrence of the
minimum (the empty case, an error in numpy, is totalised to `0`). -/
noncomputable def argmin : List ℝ → ℕ
  | [] => 0
  | v :: rest => argminAux rest 1 0 v

/-- Python list indexing `l[i]` including negative-index wrap-around; an
out-of-range index (an `IndexError`, unreachable in the analysed calls) is
totalised to `(0, 0)`. -/
noncomputable def pyIndex (l : List Pt) (i : ℤ) : Pt :=
  if 0 ≤ i ∧ i < (l.length : ℤ) then l.getD i.toNat (0, 0)
  else if -(l.length : ℤ) ≤ i ∧ i < 0 then l.getD ((l.length : ℤ) + i).toNat (0, 0)
  else (0, 0)

/-- Controller gains and state (`controller.py`, class fields). -/
structure Controller where
  k : ℝ
  k_soft : ℝ
  max_speed : ℝ
  resolution : ℝ
  previous_steering_angle : ℝ
  steering_rate_limit : ℝ

/-- `Controller.__init__` with its default arguments; the steering-rate limit
is `np.radians(10) = π/18` and the previous steering command starts at `0`. -/
noncomputable def Controller.init : Controller := ⟨1, 0.5, 30, 0.3, 0, π / 18⟩

/-- `Controller.find_closest_point`: exhaustive nearest-point scan, first
index on ties. -/
noncomputable def find_closest_idx (pos : Pt) (path : List Pt) : ℕ :=
  argmin (path.map fun p => norm2 (ptSub pos p))

/-- `Controller.dynamic_look_ahead`: `5 + int(velocity / 5)`. -/
noncomputable def dynamic_look_ahead (velocity : ℝ) : ℤ := 5 + pyInt (velocity / 5)

/-- `Controller.calculate_heading_error`: bearing to the target minus yaw,
normalised into `(-π, π]` via `arctan2(sin, cos)`. -/
noncomputable def calculate_heading_error (robot : RobotModel) (target : Pt) : ℝ :=
  let target_heading := atan2 (target.2 - robot.y) (target.1 - robot.x)
  atan2 (Real.sin (target_heading - robot.yaw)) (Real.cos (target_heading - robot.yaw))

/-- `Controller.calculate_cross_track_error`: 2-D cross product of the
segment vector `closest → next` with the vehicle offset, normalised by the
segment length plus a `1e-6` guard. -/
noncomputable def calculate_cross_track_error (robot : RobotModel) (path : List Pt)
    (closest_idx : ℕ) : ℝ :=
  let closest_point := pyIndex path closest_idx
  let next_point := pyIndex path (min ((closest_idx : ℤ) + 1) ((path.length : ℤ) - 1))
  let path_vector := ptSub next_point closest_point
  let robot_vector := ptSub (robot.x, robot.y) closest_point
  cross2 path_vector robot_vector / (norm2 path_vector + 1e-6)

/-- `Controller.estimate_curvature`: three-point angle-over-arc-length
estimate ahead of the vehicle, `0` when the look-ahead window leaves the
path. -/
noncomputable def estimate_curvature (path : List Pt) (idx : ℕ) (look_ahead : ℤ) : ℝ :=
  if (path.length : ℤ) ≤ (idx : ℤ) + look_ahead then 0
  else
    let p1 := pyIndex path idx
    let p2 := pyIndex path ((idx : ℤ) + Int.fdiv look_ahead 2)
    let p3 := pyIndex path ((idx : ℤ) + look_ahead)
    let vec1 := ptSub p2 p1
    let vec2 := ptSub p3 p2
    let angle := Real.arccos (dot2 vec1 vec2 / (norm2 vec1 * norm2 vec2 + 1e-6))
    angle / (norm2 (ptSub p3 p1) + 1e-6)

/-- The look-ahead point `path[min(closest_idx + look_ahead, len(path)-1)]`
used for the heading error inside `Controller.control`. -/
noncomputable def future_point (robot : RobotModel) (path : List Pt) : Pt :=
  let closest_idx := find_closest_idx (robot.x, robot.y) path
  let look_ahead := dynamic_look_ahead robot.velocity
  pyIndex path (min ((closest_idx : ℤ) + look_ahead) ((path.length : ℤ) - 1))

/-- The raw (pre-rate-limit) Stanley steering angle computed inside
`Controller.control`:
`heading_error + arctan2(k·cross_track_error, velocity + k_soft)`. -/
noncomputable def Controller.raw_steering (c : Controller) (robot : RobotModel)
    (path : List Pt) : ℝ :=
  calculate_heading_error robot (future_point robot path) +
    atan2 (c.k * calculate_cross_track_error robot path
        (find_closest_idx (robot.x, robot.y) path))
      (robot.velocity + c.k_soft)

/-- The curvature-based target speed computed inside `Controller.control`:
`max_speed * (1 - clip(curvature*2, 0, 0.8))`. -/
noncomputable def Controller.target_speed (c : Controller) (robot : RobotModel)
    (path : List Pt) : ℝ :=
  c.max_speed *
    (1 - clip (estimate_curvature path (find_closest_idx (robot.x, robot.y) path)
        (dynamic_look_ahead robot.velocity) * 2) 0 0.8)

/-- `Controller.control`: returns `(acceleration, steering_angle)` and the
controller with its `previous_steering_angle` state updated to the returned
steering command. -/
noncomputable def Controller.control (c : Controller) (robot : RobotModel)
    (path : List Pt) (dt : ℝ) : (ℝ × ℝ) × Controller :=
  let steering_angle := clip (c.raw_steering robot path)
    (c.previous_steering_angle - c.steering_rate_limit * dt)
    (c.previous_steering_angle + c.steering_rate_limit * dt)
  let acceleration := (c.target_speed robot path - robot.velocity) / dt
  ((clip acceleration (-robot.max_acceleration) robot.max_acceleration, steering_angle),
    { c with previous_steering_angle := steering_angle })

/-- Occupancy grid (`track.get_obstacle_map()`): shape `(height, width)`,
`cell y x` the integer stored at `obstacle_map[y, x]` (`1` = obstacle). -/
structure Grid where
  height : ℕ
  width : ℕ
  cell : ℤ → ℤ → ℤ

/-- The in-bounds test `0 <= x < shape[1] and 0 <= y < shape[0]` used by
`check_collision`. -/
def in_bounds (g : Grid) (x y : ℤ) : Bool :=
  decide (0 ≤ x ∧ x < (g.width : ℤ) ∧ 0 ≤ y ∧ y < (g.height : ℤ))

/-- A probed cell triggers a collision: out of grid bounds (always a
collision), or in bounds and marked `1`. -/
def cell_blocked (g : Grid) (x y : ℤ) : Bool :=
  if in_bounds g x y then decide (g.cell y x = 1) else true

/-- Front-left footprint corner (`check_collision`, first list entry). -/
noncomputable def corner_fl (car : RobotModel) : Pt :=
  (car.x + Real.cos car.yaw * car.length / 2 - Real.sin car.yaw * car.width / 2,
   car.y + Real.sin car.yaw * car.length / 2 + Real.cos car.yaw * car.width / 2)

/-- Front-right footprint corner (second list entry). -/
noncomputable def corner_fr (car : RobotModel) : Pt :=
  (car.x + Real.cos car.yaw * car.length / 2 + Real.sin car.yaw * car.width / 2,
   car.y + Real.sin car.yaw * car.length / 2 - Real.cos car.yaw * car.width / 2)

/-- Rear-right footprint corner (third list entry). -/
noncomputable def corner_rr (car : RobotModel) : Pt :=
  (car.x - Real.cos car.yaw * car.length / 2 + Real.sin car.yaw * car.width / 2,
   car.y - Real.sin car.yaw * car.length / 2 - Real.cos car.yaw * car.width / 2)

/-- Rear-left footprint corner (fourth list entry). -/
noncomputable def corner_rl (car : RobotModel) : Pt :=
  (car.x - Real.cos car.yaw * car.length / 2 - Real.sin car.yaw * car.width / 2,
   car.y - Real.sin car.yaw * car.length / 2 + Real.cos car.yaw * car.width / 2)

/-- The corner list of `check_collision`, in its fixed order. -/
noncomputable def corners_of (car : RobotModel) : List Pt :=
  [corner_fl car, corner_fr car, corner_rr car, corner_rl car]

/-- The four footprint edges `corners[i] → corners[(i+1) % 4]` in cyclic
order. -/
noncomputable def edges_of (car : RobotModel) : List (Pt × Pt) :=
  [(corner_fl car, corner_fr car), (corner_fr car, corner_rr car),
   (corner_rr car, corner_rl car), (corner_rl car, corner_fl car)]

/-- The 11 grid cells sampled along one edge by `check_line_segment`
(`num_points = 10`; `t = i/10`; `int` truncation after interpolation). -/
noncomputable def seg_cells (s e : Pt) : List (ℤ × ℤ) :=
  (List.range 11).map fun i =>
    (pyInt (s.1 + (i : ℝ) / 10 * (e.1 - s.1)),
     pyInt (s.2 + (i : ℝ) / 10 * (e.2 - s.2)))

/-- `check_line_segment`: the first sampled cell (in sampling order) that is
out of bounds or occupied, `none` if the whole edge is clear. -/
noncomputable def check_line_segment (g : Grid) (s e : Pt) : Option (ℤ × ℤ) :=
  (seg_cells s e).find? fun c => cell_blocked g c.1 c.2

/-- `check_collision` (`main.py`): test the four corners in fixed order
(front-left, front-right, rear-right, rear-left) with early return, then the
four edges in the same cyclic order; a corner hit reports the corner's float
coordinates, an edge hit the sampled integer cell; `none` = no collision. -/
noncomputable def check_collision (g : Grid) (car : RobotModel) : Option Pt :=
  match (corners_of car).find? (fun p => cell_blocked g (pyInt p.1) (pyInt p.2)) with
  | some p => some p
  | none =>
    ((edges_of car).findSome? fun se => check_line_segment g se.1 se.2).map
      fun c => ((c.1 : ℝ), (c.2 : ℝ))

/-- One probe of the collision scan: a footprint corner or an edge sample. -/
inductive Probe where
  | corner (p : Pt)
  | sample (c : ℤ × ℤ)

/-- The grid cell a probe is checked against. -/
noncomputable def probe_cell : Probe → ℤ × ℤ
  | .corner p => (pyInt p.1, pyInt p.2)
  | .sample c => c

/-- The coordinate a probe reports as the collision point. -/
noncomputable def probe_point : Probe → Pt
  | .corner p => p
  | .sample c => ((c.1 : ℝ), (c.2 : ℝ))

/-- The complete, ordered probe sequence described by the claim: the four
corners (front-left, front-right, rear-right, rear-left), then the samples
of the four edges in the same cyclic order. -/
noncomputable def probe_list (car : RobotModel) : List Probe :=
  (corners_of car).map Probe.corner ++
    (edges_of car).flatMap fun se => (seg_cells se.1 se.2).map Probe.sample

/-- Spec-side collision check, following the claim's wording: scan the probe
sequence in order and report the point of the first probe whose cell is out
of bounds or occupied. -/
noncomputable def check_collision_scan (g : Grid) (car : RobotModel) : Option Pt :=
  ((probe_list car).find? fun pr =>
    cell_blocked g (probe_cell pr).1 (probe_cell pr).2).map probe_point

/-- Simulation status per tick (`main`'s loop: running, stopped by a
collision at a point, or stopped at the goal). -/
inductive SimState where
  | running (robot : RobotModel) (ctrl : Controller) (t : ℝ)
  | collided (point : Pt)
  | goal_reached

/-- The distance to the goal computed at the top of each loop iteration in
`main`. -/
noncomputable def distance_to_goal (robot : RobotModel) (goal : Pt) : ℝ :=
  Real.sqrt ((robot.x - goal.1) ^ 2 + (robot.y - goal.2) ^ 2)

/-- One iteration of `main`'s simulation loop: collision check first (stop,
keeping the collision point, without running the controller or integrator);
otherwise the goal test against `goal_radius`; otherwise controller then
kinematic update, with simulated time advanced by `dt`. Terminal states are
absorbing (the Python loop has exited). -/
noncomputable def sim_tick (g : Grid) (path : List Pt) (goal : Pt)
    (goal_radius dt : ℝ) : SimState → SimState
  | .running robot ctrl t =>
    match check_collision g robot with
    | some p => .collided p
    | none =>
      if distance_to_goal robot goal < goal_radius then .goal_reached
      else
        let res := ctrl.control robot path dt
        .running (robot.update (res.1).1 (res.1).2 dt) res.2 (t + dt)
  | .collided p => .collided p
  | .goal_reached => .goal_reached

/-- Componentwise sum of 2-D points. -/
def ptAdd (a b : Pt) : Pt := (a.1 + b.1, a.2 + b.2)

/-- Scalar multiple of a 2-D point. -/
def ptSmul (c : ℝ) (a : Pt) : Pt := (c * a.1, c * a.2)

/-- The points `p1 + (p2 - p1) * (j / num_points)` for `j = 1..num_points`
appended by `interpolate_path` for one consecutive pair, with
`num_points = max(1, int(distance / resolution))`. -/
noncomputable def seg_points (p q : Pt) (res : ℝ) : List Pt :=
  let distance := norm2 (ptSub q p)
  let num_points := max 1 (pyInt (distance / res))
  (List.range num_points.toNat).map fun j : ℕ =>
    ptAdd p (ptSmul (((j : ℝ) + 1) / (num_points : ℝ)) (ptSub q p))

/-- The walk of `interpolate_path` over consecutive pairs. -/
noncomputable def interp_aux (res : ℝ) : Pt → List Pt → List Pt
  | _, [] => []
  | prev, q :: rest => seg_points prev q res ++ interp_aux res q rest

/-- `interpolate_path`: starts with `path[0]` and resamples every consecutive
pair by linear subdivision (the empty path, an `IndexError` in Python, is
totalised to `[]`; the pipeline only passes non-empty paths). -/
noncomputable def interpolate_path (path : List Pt) (res : ℝ) : List Pt :=
  match path with
  | [] => []
  | p :: rest => p :: interp_aux res p rest

/-- A grid cell, as the `(x, y)` integer tuples the planner works on. -/
abbrev Node : Type := ℤ × ℤ

/-- Cast a grid node to a real point. -/
noncomputable def nodePt (n : Node) : Pt := ((n.1 : ℝ), (n.2 : ℝ))

/-- Planner state (`path_planner.py`): map shape, the Euclidean
distance-transform field produced by `scipy.ndimage.distance_transform_edt`
(stored here as the resulting per-cell function), and the clearance
parameters (class defaults `robot_size = 5`, `safety_margin = 6`). -/
structure PathPlanner where
  rows : ℕ
  cols : ℕ
  distance_map : Node → ℝ
  robot_size : ℝ
  safety_margin : ℝ

/-- `_generate_safe_mask`: `distance_map > robot_size + safety_margin`. -/
def PathPlanner.safe_mask (pl : PathPlanner) (n : Node) : Prop :=
  pl.distance_map n > pl.robot_size + pl.safety_margin

/-- `is_valid_point`: membership in the safe mask. -/
def PathPlanner.is_valid_point (pl : PathPlanner) (n : Node) : Prop := pl.safe_mask n

/-- `heuristic`: Euclidean distance between cells. -/
noncomputable def heuristic (a b : Node) : ℝ := norm2 (ptSub (nodePt a) (nodePt b))

/-- `get_neighbors`: the 8 direction offsets in source order, bounds-filtered
(`0 <= x+dx < cols and 0 <= y+dy < rows`). -/
def get_neighbors (pl : PathPlanner) (p : Node) : List Node :=
  ([(0, 1), (1, 0), (0, -1), (-1, 0), (1, 1), (-1, 1), (1, -1), (-1, -1)] :
      List (ℤ × ℤ)).filterMap fun d =>
    if 0 ≤ p.1 + d.1 ∧ p.1 + d.1 < (pl.cols : ℤ) ∧
        0 ≤ p.2 + d.2 ∧ p.2 + d.2 < (pl.rows : ℤ) then
      some (p.1 + d.1, p.2 + d.2)
    else none

/-- `curvature_cost`: `abs(angle) * 5` between the incoming direction (from
`came_from[current]`) and the candidate step, `0` when `current` has no
parent yet. -/
noncomputable def curvature_cost (current neighbor : Node)
    (came_from : Node → Option Node) : ℝ :=
  match came_from current with
  | some prev =>
    let vec1 := ptSub (nodePt current) (nodePt prev)
    let vec2 := ptSub (nodePt neighbor) (nodePt current)
    |Real.arccos (dot2 vec1 vec2 / (norm2 vec1 * norm2 vec2 + 1e-6))| * 5
  | none => 0

/-- Mutable search state of `find_path`: the heap contents, and the
`came_from`, `g_score` and `visited` maps (the write-only `f_score` map is
not stored: the pushed key `f_score[neighbor]` is the value just computed). -/
structure AState where
  openSet : List (ℝ × Node)
  cameFrom : Node → Option Node
  gScore : Node → Option ℝ
  visited : Node → Bool

/-- Python's lexicographic ordering on heap entries `(f, (x, y))`. -/
def entry_le (a b : ℝ × Node) : Prop :=
  a.1 < b.1 ∨ (a.1 = b.1 ∧ (a.2.1 < b.2.1 ∨ (a.2.1 = b.2.1 ∧ a.2.2 ≤ b.2.2)))

noncomputable instance (pl : PathPlanner) (n : Node) : Decidable (pl.safe_mask n) := by
  unfold PathPlanner.safe_mask
  infer_instance

noncomputable instance (pl : PathPlanner) (n : Node) :
    Decidable (pl.is_valid_point n) := by
  unfold PathPlanner.is_valid_point
  infer_instance

noncomputable instance (a b : ℝ × Node) : Decidable (entry_le a b) := by
  unfold entry_le
  infer_instance

/-- `heapq.heappop`: remove a least entry under the tuple order (entries with
equal keys are indistinguishable, so taking the first minimal occurrence is
faithful). -/
noncomputable def pop_min : List (ℝ × Node) → Option ((ℝ × Node) × List (ℝ × Node))
  | [] => none
  | e :: rest =>
    match pop_min rest with
    | none => some (e, [])
    | some (m, rest2) =>
      if entry_le e m then some (e, rest) else some (m, e :: rest2)

/-- One neighbour expansion inside the A* loop: skip invalid cells; otherwise
compute `g[current] + 1 + 1/(distance+1e-6) + curvature_cost` and, on first
visit or strict improvement, update `came_from`/`g_score` and push
`(g + heuristic, neighbor)`. `g_score[current]` is always present when
`current` has been popped; the `getD 0` totalises the impossible `KeyError`. -/
noncomputable def expand_neighbor (pl : PathPlanner) (goal current : Node)
    (st : AState) (neighbor : Node) : AState :=
  if pl.is_valid_point neighbor then
    let distance_weight := 1 / (pl.distance_map neighbor + 1e-6)
    let curvature_penalty := curvature_cost current neighbor st.cameFrom
    let tentative_g :=
      (st.gScore current).getD 0 + 1 + distance_weight + curvature_penalty
    let push : AState :=
      { openSet := (tentative_g + heuristic neighbor goal, neighbor) :: st.openSet
        cameFrom := fun n => if n = neighbor then some current else st.cameFrom n
        gScore := fun n => if n = neighbor then some tentative_g else st.gScore n
        visited := st.visited }
    match st.gScore neighbor with
    | none => push
    | some old => if tentative_g < old then push else st
  else st

/-- The `while open_set` loop of `find_path`, fuel-indexed: `some none` means
the open set emptied (Python returns `None`), `some (some cf)` means the goal
was popped, with the final `came_from` map; `none` means the fuel ran out
(no Python counterpart). -/
noncomputable def search_loop (pl : PathPlanner) (goal : Node) :
    ℕ → AState → Option (Option (Node → Option Node))
  | 0, _ => none
  | fuel + 1, st =>
    match pop_min st.openSet with
    | none => some none
    | some (e, rest) =>
      if st.visited e.2 then
        search_loop pl goal fuel { st with openSet := rest }
      else
        let st1 : AState :=
          { st with
            openSet := rest
            visited := fun n => if n = e.2 then true else st.visited n }
        if e.2 = goal then some (some st1.cameFrom)
        else
          search_loop pl goal fuel
            (List.foldl (expand_neighbor pl goal e.2) st1 (get_neighbors pl e.2))

/-- The initial search state: `open_set = [(0, start)]`, empty `came_from`,
`g_score = {start: 0}`, empty `visited`. -/
noncomputable def init_state (start : Node) : AState :=
  ⟨[(0, start)], fun _ => none, fun n => if n = start then some 0 else none,
    fun _ => false⟩

/-- `reconstruct_path`, fuel-indexed: follow `came_from` from the goal back
until `start` and return the path from start to goal; `none` models a missing
key (a `KeyError`) or exhausted fuel. -/
noncomputable def reconstruct_path :
    ℕ → (Node → Option Node) → Node → Node → Option (List Node)
  | 0, _, _, _ => none
  | fuel + 1, cf, start, current =>
    if current = start then some [start]
    else
      match cf current with
      | none => none
      | some prev => (reconstruct_path fuel cf start prev).map (· ++ [current])

/-- The raw (pre-interpolation, pre-smoothing) node path of a successful
search: `some none` = `find_path` returns `None`, `some (some raw)` = raw
node path, `none` = insufficient fuel. -/
noncomputable def find_raw_path (pl : PathPlanner) (start goal : Node) (fuel : ℕ) :
    Option (Option (List Node)) :=
  match search_loop pl goal fuel (init_state start) with
  | none => none
  | some none => some none
  | some (some cf) =>
    match reconstruct_path fuel cf start goal with
    | none => none
    | some raw => some (some raw)

/-- `smooth_path`: paths with fewer than 3 points are returned unchanged; the
B-spline fit (`scipy.interpolate.splprep`/`splev`) applied to longer paths is
an external call, passed in as the `spline` parameter. -/
def smooth_path (spline : List Pt → List Pt) (path : List Pt) : List Pt :=
  if path.length < 3 then path else spline path

/-- `find_path`: the A* search, then `interpolate_path` at resolution `0.5`,
then `smooth_path`. -/
noncomputable def find_path (spline : List Pt → List Pt) (pl : PathPlanner)
    (start goal : Node) (fuel : ℕ) : Option (Option (List Pt)) :=
  (find_raw_path pl start goal fuel).map
    (Option.map fun raw => smooth_path spline (interpolate_path (raw.map nodePt) (1 / 2)))

/-- `Track.set_start_point` / `Track.set_goal_point`: raise `ValueError`
exactly when the chosen cell is marked as obstacle in the occupancy map,
otherwise store the point. -/
def set_start_point (obstacle_map : Node → ℤ) (p : Node) : Except String Node :=
  if obstacle_map p = 1 then Except.error "point inside obstacle area"
  else Except.ok p

/-- 8-connected grid adjacency: distinct cells whose coordinates differ by at
most 1 in each axis. -/
def adjacent8 (p q : Node) : Prop :=
  p ≠ q ∧ (q.1 - p.1).natAbs ≤ 1 ∧ (q.2 - p.2).natAbs ≤ 1

/-- Concrete planner for counterexamples: a 3×3 occupancy map with a single
obstacle at the centre cell `(1, 1)`; its exact Euclidean distance transform
is `dist(n, (1,1))`, and with the default `robot_size = 5`,
`safety_margin = 6` the safe mask is empty (all distances are at most √2). -/
noncomputable def cpl : PathPlanner :=
  ⟨3, 3, fun n => Real.sqrt (((n.1 : ℝ) - 1) ^ 2 + ((n.2 : ℝ) - 1) ^ 2), 5, 6⟩

/-- Invariant of the search's `came_from` map: every recorded child passed
the `is_valid_point` check and is 8-adjacent to its recorded parent. -/
def cf_inv (pl : PathPlanner) (cf : Node → Option Node) : Prop :=
  ∀ n prev, cf n = some prev → pl.safe_mask n ∧ adjacent8 prev n

theorem clip_le_hi (x lo hi : ℝ) : clip x lo hi ≤ hi := min_le_right _ _

theorem clip_of_nonneg_bounds (m : ℝ) (hm : 0 ≤ m) : clip 0 (-m) m = 0 := by
  unfold clip
  rw [max_eq_left (by linarith), min_eq_left hm]

theorem le_clip (x lo hi : ℝ) (h : lo ≤ hi) : lo ≤ clip x lo hi :=
  le_min (le_max_right _ _) h

/-- C2: if `dt > 0` and the pre-state velocity lies in
`[min_velocity, max_velocity]`, then the committed post-state velocity of
`RobotModel.update` lies in `[min_velocity, max_velocity]`; moreover if the
unclamped end-velocity `velocity + clip(acceleration)·dt` would exceed
`max_velocity`, the committed velocity equals `max_velocity` exactly. -/
theorem update_velocity_clamped (r : RobotModel) (acc steer dt : ℝ)
    (hdt : 0 < dt) (hlo : r.min_velocity ≤ r.velocity)
    (hhi : r.velocity ≤ r.max_velocity) :
    (r.min_velocity ≤ (r.update acc steer dt).velocity ∧
      (r.update acc steer dt).velocity ≤ r.max_velocity) ∧
    (r.max_velocity <
        r.velocity + clip acc (-r.max_acceleration) r.max_acceleration * dt →
      (r.update acc steer dt).velocity = r.max_velocity) := by
  have hminmax : r.min_velocity ≤ r.max_velocity := le_trans hlo hhi
  unfold RobotModel.update
  dsimp only
  set a := clip acc (-r.max_acceleration) r.max_acceleration with ha
  split_ifs with h hpos
  · -- single-phase branch: velocity = v + a·dt
    constructor
    · rcases h with ⟨hpos, hle⟩ | ⟨hneg, hle⟩ | hzero
      · have h2 : dt * a ≤ r.max_velocity - r.velocity := (le_div_iff₀ hpos).mp hle
        constructor
        · show r.min_velocity ≤ r.velocity + a * dt
          nlinarith
        · show r.velocity + a * dt ≤ r.max_velocity
          nlinarith
      · have h2 : r.min_velocity - r.velocity ≤ dt * a := (le_div_iff_of_neg hneg).mp hle
        constructor
        · show r.min_velocity ≤ r.velocity + a * dt
          nlinarith
        · show r.velocity + a * dt ≤ r.max_velocity
          nlinarith
      · rw [hzero]
        constructor
        · show r.min_velocity ≤ r.velocity + 0 * dt
          nlinarith
        · show r.velocity + 0 * dt ≤ r.max_velocity
          nlinarith
    · intro hex
      exfalso
      rcases h with ⟨hpos, hle⟩ | ⟨hneg, hle⟩ | hzero
      · have h2 : dt * a ≤ r.max_velocity - r.velocity := (le_div_iff₀ hpos).mp hle
        nlinarith
      · nlinarith
      · rw [hzero] at hex; nlinarith
  · -- two-phase branch reached with a > 0: velocity committed to max_velocity
    exact ⟨⟨hminmax, le_refl _⟩, fun _ => rfl⟩
  · -- two-phase branch reached with a < 0: velocity committed to min_velocity
    push_neg at h
    obtain ⟨h1, h2, h3⟩ := h
    have hneg : a < 0 := lt_of_le_of_ne (not_lt.mp hpos) h3
    refine ⟨⟨le_refl _, hminmax⟩, fun hex => ?_⟩
    exfalso
    nlinarith

/-- C2 witness: a concrete single call in range. -/
theorem update_velocity_clamped_witness :
    (0:ℝ) < 1 ∧ (-20:ℝ) ≤ 0 ∧ (0:ℝ) ≤ 80 ∧
    ((((RobotModel.init 0 0 0 2 1).update 100 0 1).velocity ≥ (RobotModel.init 0 0 0 2 1).min_velocity ∧
      (((RobotModel.init 0 0 0 2 1).update 100 0 1).velocity ≤ (RobotModel.init 0 0 0 2 1).max_velocity)) ∧
      ((RobotModel.init 0 0 0 2 1).max_velocity <
          (RobotModel.init 0 0 0 2 1).velocity +
            clip 100 (-(RobotModel.init 0 0 0 2 1).max_acceleration)
              (RobotModel.init 0 0 0 2 1).max_acceleration * 1 →
        ((RobotModel.init 0 0 0 2 1).update 100 0 1).velocity =
          (RobotModel.init 0 0 0 2 1).max_velocity)) := by
  have h := update_velocity_clamped (RobotModel.init 0 0 0 2 1) 100 0 1
    (by norm_num) (by norm_num [RobotModel.init]) (by norm_num [RobotModel.init])
  exact ⟨by norm_num, by norm_num, by norm_num, ⟨h.1.1, h.1.2⟩, h.2⟩

/-- C6: with `acceleration = 0`, `steering = 0` and any `dt > 0`,
`RobotModel.update` leaves `yaw` and `velocity` unchanged and advances the
position by exactly `(velocity·dt·cos yaw, velocity·dt·sin yaw)` (assuming
nonnegative actuator limits, as set by the constructor). -/
theorem update_zero_inputs (r : RobotModel) (dt : ℝ) (hdt : 0 < dt)
    (hacc : 0 ≤ r.max_acceleration) (hst : 0 ≤ r.max_steering_angle) :
    (r.update 0 0 dt).x = r.x + r.velocity * dt * Real.cos r.yaw ∧
    (r.update 0 0 dt).y = r.y + r.velocity * dt * Real.sin r.yaw ∧
    (r.update 0 0 dt).yaw = r.yaw ∧
    (r.update 0 0 dt).velocity = r.velocity := by
  have hA : clip 0 (-r.max_acceleration) r.max_acceleration = 0 :=
    clip_of_nonneg_bounds _ hacc
  have hs : clip 0 (-r.max_steering_angle) r.max_steering_angle = 0 :=
    clip_of_nonneg_bounds _ hst
  unfold RobotModel.update
  rw [hA, hs]
  rw [if_pos (Or.inr (Or.inr rfl))]
  simp only [Real.tan_zero, mul_zero, zero_mul, add_zero, zero_div]
  refine ⟨by ring_nf, by ring_nf, by ring_nf, by ring_nf⟩

/-- C6 witness: concrete straight-line coasting step. -/
theorem update_zero_inputs_witness :
    (0:ℝ) < 1 ∧ (0:ℝ) ≤ (RobotModel.init 0 0 0 2 1).max_acceleration ∧
    (0:ℝ) ≤ (RobotModel.init 0 0 0 2 1).max_steering_angle ∧
    (((RobotModel.init 0 0 0 2 1).update 0 0 1).x =
        (RobotModel.init 0 0 0 2 1).x +
          (RobotModel.init 0 0 0 2 1).velocity * 1 *
            Real.cos (RobotModel.init 0 0 0 2 1).yaw ∧
      ((RobotModel.init 0 0 0 2 1).update 0 0 1).yaw =
        (RobotModel.init 0 0 0 2 1).yaw) := by
  have hacc : (0:ℝ) ≤ (RobotModel.init 0 0 0 2 1).max_acceleration := by
    norm_num [RobotModel.init]
  have hst : (0:ℝ) ≤ (RobotModel.init 0 0 0 2 1).max_steering_angle := by
    simp only [RobotModel.init]
    positivity
  have h := update_zero_inputs (RobotModel.init 0 0 0 2 1) 1 (by norm_num) hacc hst
  exact ⟨by norm_num, hacc, hst, h.1, h.2.2.1⟩

theorem clip_eq_of_mem (x lo hi : ℝ) (h1 : lo ≤ x) (h2 : x ≤ hi) :
    clip x lo hi = x := by
  unfold clip
  rw [max_eq_left h1, min_eq_left h2]

theorem clip_cases (x lo hi : ℝ) :
    clip x lo hi = x ∨ clip x lo hi = lo ∨ clip x lo hi = hi := by
  unfold clip
  rcases max_choice x lo with h | h <;> rw [h]
  · rcases min_choice x hi with h2 | h2 <;> rw [h2]
    · exact Or.inl rfl
    · exact Or.inr (Or.inr rfl)
  · rcases min_choice lo hi with h2 | h2 <;> rw [h2]
    · exact Or.inr (Or.inl rfl)
    · exact Or.inr (Or.inr rfl)

theorem atan2_pos_x (y x : ℝ) (hx : 0 < x) : atan2 y x = Real.arctan (y / x) := by
  unfold atan2
  rw [if_pos hx]

theorem atan2_zero_pos (x : ℝ) (hx : 0 < x) : atan2 0 x = 0 := by
  rw [atan2_pos_x 0 x hx, zero_div, Real.arctan_zero]

theorem atan2_zero_neg (x : ℝ) (hx : x < 0) : atan2 0 x = π := by
  unfold atan2
  rw [if_neg (by linarith), if_pos hx, if_pos le_rfl, zero_div, Real.arctan_zero,
    zero_add]

theorem atan2_zero_zero : atan2 0 0 = 0 := by
  unfold atan2
  norm_num

theorem atan2_sin_cos (θ : ℝ) (h1 : -(π / 2) < θ) (h2 : θ < π / 2) :
    atan2 (Real.sin θ) (Real.cos θ) = θ := by
  have hc : 0 < Real.cos θ := Real.cos_pos_of_mem_Ioo ⟨h1, h2⟩
  unfold atan2
  rw [if_pos hc, ← Real.tan_eq_sin_div_cos, Real.arctan_tan h1 h2]

theorem find_closest_idx_single (pos p : Pt) : find_closest_idx pos [p] = 0 := by
  simp [find_closest_idx, argmin, argminAux]

theorem pyIndex_single_zero (p : Pt) : pyIndex [p] 0 = p := by
  simp [pyIndex]

theorem cte_single (robot : RobotModel) (p : Pt) :
    calculate_cross_track_error robot [p]
      (find_closest_idx (robot.x, robot.y) [p]) = 0 := by
  rw [find_closest_idx_single]
  unfold calculate_cross_track_error
  norm_num [pyIndex_single_zero, ptSub, cross2]

/-- C10: the target speed computed inside `Controller.control` always lies in
`[0.2·max_speed, max_speed]`: the curvature-based reduction factor is clipped
to at most `0.8`, so the controller never commands less than 20% of
`max_speed` (stated for any nonnegative `max_speed`; the class default is
`30`). -/
theorem target_speed_bounds (c : Controller) (robot : RobotModel) (path : List Pt)
    (hms : 0 ≤ c.max_speed) :
    0.2 * c.max_speed ≤ c.target_speed robot path ∧
      c.target_speed robot path ≤ c.max_speed := by
  unfold Controller.target_speed
  set E := estimate_curvature path (find_closest_idx (robot.x, robot.y) path)
    (dynamic_look_ahead robot.velocity) * 2 with hE
  have h1 : (0 : ℝ) ≤ clip E 0 0.8 := le_clip _ _ _ (by norm_num)
  have h2 : clip E 0 0.8 ≤ 0.8 := clip_le_hi _ _ _
  constructor
  · nlinarith
  · nlinarith

/-- C10 witness: the default controller (`max_speed = 30`) on a concrete
state and path. -/
theorem target_speed_bounds_witness :
    (0 : ℝ) ≤ Controller.init.max_speed ∧
    (0.2 * Controller.init.max_speed ≤
        Controller.init.target_speed (RobotModel.init 0 0 0 1 1) [(0, 0)] ∧
      Controller.init.target_speed (RobotModel.init 0 0 0 1 1) [(0, 0)] ≤
        Controller.init.max_speed) := by
  have h0 : (0 : ℝ) ≤ Controller.init.max_speed := by norm_num [Controller.init]
  exact ⟨h0, target_speed_bounds Controller.init (RobotModel.init 0 0 0 1 1) [(0, 0)] h0⟩

theorem heading_error_zero_of_east (robot : RobotModel) (target : Pt)
    (hx : robot.x < target.1) (hy : target.2 = robot.y) (hyaw : robot.yaw = 0) :
    calculate_heading_error robot target = 0 := by
  unfold calculate_heading_error
  dsimp only
  rw [hy, sub_self, atan2_zero_pos _ (by linarith), hyaw, sub_zero,
    Real.sin_zero, Real.cos_zero]
  exact atan2_zero_pos 1 one_pos

theorem future_point_single (robot : RobotModel) (p : Pt)
    (h : 0 ≤ dynamic_look_ahead robot.velocity) : future_point robot [p] = p := by
  unfold future_point
  rw [find_closest_idx_single]
  dsimp only
  have hmin : min (((0 : ℕ) : ℤ) + dynamic_look_ahead robot.velocity)
      ((([p] : List Pt).length : ℤ) - 1) = 0 := by
    simp only [List.length_singleton, Nat.cast_zero, Nat.cast_one, zero_add, sub_self]
    exact min_eq_right h
  rw [hmin, pyIndex_single_zero]

theorem look_ahead_of_zero : dynamic_look_ahead 0 = 5 := by
  unfold dynamic_look_ahead pyInt
  norm_num

theorem look_ahead_of_neg_one : dynamic_look_ahead (-1) = 5 := by
  unfold dynamic_look_ahead pyInt
  rw [if_neg (by norm_num)]
  have h : ⌈(-1 / 5 : ℝ)⌉ = 0 := by
    rw [Int.ceil_eq_iff] <;> norm_num
  rw [h]
  norm_num

/-- C7 counterexample: with velocity `-1` (so that `velocity + k_soft < 0`)
the computed heading error and cross-track error are both exactly `0`, yet
the raw steering angle is `π`, not `0`: `arctan2(0, negative) = π`. -/
theorem raw_steering_zero_cex :
    calculate_heading_error ⟨0, 0, 0, -1, 1, 1, 80, -20, 30, π / 4⟩
      (future_point ⟨0, 0, 0, -1, 1, 1, 80, -20, 30, π / 4⟩ [(1, 0)]) = 0 ∧
    calculate_cross_track_error ⟨0, 0, 0, -1, 1, 1, 80, -20, 30, π / 4⟩ [(1, 0)]
      (find_closest_idx (0, 0) [(1, 0)]) = 0 ∧
    Controller.init.raw_steering ⟨0, 0, 0, -1, 1, 1, 80, -20, 30, π / 4⟩ [(1, 0)] = π ∧
    π ≠ 0 := by
  have hfp : future_point (⟨0, 0, 0, -1, 1, 1, 80, -20, 30, π / 4⟩ : RobotModel)
      [(1, 0)] = (1, 0) := by
    refine future_point_single _ _ ?_
    show (0 : ℤ) ≤ dynamic_look_ahead (-1)
    rw [look_ahead_of_neg_one]
    norm_num
  have hhe : calculate_heading_error (⟨0, 0, 0, -1, 1, 1, 80, -20, 30, π / 4⟩ :
      RobotModel) (1, 0) = 0 :=
    heading_error_zero_of_east _ _ (by norm_num) (by norm_num) (by norm_num)
  have hcte := cte_single (⟨0, 0, 0, -1, 1, 1, 80, -20, 30, π / 4⟩ : RobotModel) (1, 0)
  refine ⟨by rw [hfp]; exact hhe, hcte, ?_, Real.pi_ne_zero⟩
  unfold Controller.raw_steering
  rw [hfp, hhe, hcte]
  show (0 : ℝ) + atan2 (Controller.init.k * 0) (-1 + Controller.init.k_soft) = π
  simp only [Controller.init, mul_zero]
  rw [atan2_zero_neg _ (by norm_num)]
  ring

/-- C7 amended: whenever the computed heading error and cross-track error are
both exactly `0` and additionally `velocity + k_soft > 0` (in particular for
every nonnegative velocity), the raw (pre-rate-limit) steering angle is
exactly `0`; for `velocity ≤ -k_soft` the `arctan2` convention instead
yields `±π`. -/
theorem raw_steering_zero (c : Controller) (robot : RobotModel) (path : List Pt)
    (hhe : calculate_heading_error robot (future_point robot path) = 0)
    (hcte : calculate_cross_track_error robot path
      (find_closest_idx (robot.x, robot.y) path) = 0)
    (hv : 0 < robot.velocity + c.k_soft) :
    c.raw_steering robot path = 0 := by
  unfold Controller.raw_steering
  rw [hhe, hcte, mul_zero, atan2_zero_pos _ hv, add_zero]

/-- C7 witness: the zero-error situation at rest, where the raw steering is
indeed `0`. -/
theorem raw_steering_zero_witness :
    calculate_heading_error (RobotModel.init 0 0 0 1 1)
      (future_point (RobotModel.init 0 0 0 1 1) [(1, 0)]) = 0 ∧
    calculate_cross_track_error (RobotModel.init 0 0 0 1 1) [(1, 0)]
      (find_closest_idx ((RobotModel.init 0 0 0 1 1).x,
        (RobotModel.init 0 0 0 1 1).y) [(1, 0)]) = 0 ∧
    0 < (RobotModel.init 0 0 0 1 1).velocity + Controller.init.k_soft ∧
    Controller.init.raw_steering (RobotModel.init 0 0 0 1 1) [(1, 0)] = 0 := by
  have hfp : future_point (RobotModel.init 0 0 0 1 1) [(1, 0)] = (1, 0) := by
    refine future_point_single _ _ ?_
    show (0 : ℤ) ≤ dynamic_look_ahead (RobotModel.init 0 0 0 1 1).velocity
    have : (RobotModel.init 0 0 0 1 1).velocity = 0 := rfl
    rw [this, look_ahead_of_zero]
    norm_num
  have hhe : calculate_heading_error (RobotModel.init 0 0 0 1 1) (1, 0) = 0 := by
    refine heading_error_zero_of_east _ _ ?_ ?_ ?_ <;> norm_num [RobotModel.init]
  have hcte := cte_single (RobotModel.init 0 0 0 1 1) (1, 0)
  have hv : 0 < (RobotModel.init 0 0 0 1 1).velocity + Controller.init.k_soft := by
    norm_num [RobotModel.init, Controller.init]
  exact ⟨by rw [hfp]; exact hhe, hcte, hv,
    raw_steering_zero Controller.init (RobotModel.init 0 0 0 1 1) [(1, 0)]
      (by rw [hfp]; exact hhe) hcte hv⟩

/-- C1 amended: the steering command returned by `Controller.control` is the
raw Stanley angle `heading_error + arctan2(k·cross_track_error, velocity +
k_soft)` clamped only so that its change from the previous tick's command
lies within ±(steering_rate_limit·dt); no clamp to ±`max_steering_angle` is
applied inside the controller, and the clamped command becomes the stored
previous command. -/
theorem control_steering_rate_limited (c : Controller) (robot : RobotModel)
    (path : List Pt) (dt : ℝ) :
    ((c.control robot path dt).2).previous_steering_angle =
      ((c.control robot path dt).1).2 ∧
    (((c.control robot path dt).1).2 = c.raw_steering robot path ∨
      ((c.control robot path dt).1).2 =
        c.previous_steering_angle - c.steering_rate_limit * dt ∨
      ((c.control robot path dt).1).2 =
        c.previous_steering_angle + c.steering_rate_limit * dt) ∧
    (c.previous_steering_angle - c.steering_rate_limit * dt ≤
        c.raw_steering robot path →
      c.raw_steering robot path ≤
        c.previous_steering_angle + c.steering_rate_limit * dt →
      ((c.control robot path dt).1).2 = c.raw_steering robot path) ∧
    (0 ≤ c.steering_rate_limit * dt →
      |((c.control robot path dt).1).2 - c.previous_steering_angle| ≤
        c.steering_rate_limit * dt) := by
  unfold Controller.control
  dsimp only
  refine ⟨rfl, clip_cases _ _ _, fun h1 h2 => clip_eq_of_mem _ _ _ h1 h2,
    fun hr => ?_⟩
  have hlo : c.previous_steering_angle - c.steering_rate_limit * dt ≤
      clip (c.raw_steering robot path)
        (c.previous_steering_angle - c.steering_rate_limit * dt)
        (c.previous_steering_angle + c.steering_rate_limit * dt) :=
    le_clip _ _ _ (by linarith)
  have hhi := clip_le_hi (c.raw_steering robot path)
    (c.previous_steering_angle - c.steering_rate_limit * dt)
    (c.previous_steering_angle + c.steering_rate_limit * dt)
  rw [abs_le]
  constructor <;> linarith

/-- C1 witness: a call where the raw angle lies inside the rate window, so
the returned command equals the raw angle. -/
theorem control_steering_rate_limited_witness :
    Controller.init.previous_steering_angle -
        Controller.init.steering_rate_limit * 1 ≤
      Controller.init.raw_steering (RobotModel.init 0 0 0 1 1) [(1, 0)] ∧
    Controller.init.raw_steering (RobotModel.init 0 0 0 1 1) [(1, 0)] ≤
      Controller.init.previous_steering_angle +
        Controller.init.steering_rate_limit * 1 ∧
    ((Controller.init.control (RobotModel.init 0 0 0 1 1) [(1, 0)] 1).1).2 =
      Controller.init.raw_steering (RobotModel.init 0 0 0 1 1) [(1, 0)] := by
  have hfp : future_point (RobotModel.init 0 0 0 1 1) [(1, 0)] = (1, 0) := by
    refine future_point_single _ _ ?_
    show (0 : ℤ) ≤ dynamic_look_ahead (RobotModel.init 0 0 0 1 1).velocity
    have hv : (RobotModel.init 0 0 0 1 1).velocity = 0 := rfl
    rw [hv, look_ahead_of_zero]
    norm_num
  have hraw : Controller.init.raw_steering (RobotModel.init 0 0 0 1 1) [(1, 0)] = 0 := by
    unfold Controller.raw_steering
    rw [hfp, cte_single,
      heading_error_zero_of_east _ _ (by norm_num [RobotModel.init])
        (by norm_num [RobotModel.init]) (by norm_num [RobotModel.init]),
      mul_zero]
    rw [atan2_zero_pos _ (by norm_num [RobotModel.init, Controller.init])]
    norm_num
  have h1 : Controller.init.previous_steering_angle -
      Controller.init.steering_rate_limit * 1 ≤
      Controller.init.raw_steering (RobotModel.init 0 0 0 1 1) [(1, 0)] := by
    rw [hraw]
    simp only [Controller.init]
    nlinarith [Real.pi_pos]
  have h2 : Controller.init.raw_steering (RobotModel.init 0 0 0 1 1) [(1, 0)] ≤
      Controller.init.previous_steering_angle +
      Controller.init.steering_rate_limit * 1 := by
    rw [hraw]
    simp only [Controller.init]
    nlinarith [Real.pi_pos]
  exact ⟨h1, h2,
    (control_steering_rate_limited Controller.init (RobotModel.init 0 0 0 1 1)
      [(1, 0)] 1).2.2.1 h1 h2⟩

/-- C1 counterexample: a single call to `Controller.control` (default gains,
previous command `0`, `dt = 10`) returns the steering command `arctan 2`,
which exceeds `max_steering_angle = π/4`; the value predicted by the claim
(raw angle clamped into `[-π/4, π/4]`, then rate-limited) would be `π/4`, so
the controller applies no clamp to ±`max_steering_angle`. -/
theorem control_steering_unclamped_cex :
    ((Controller.init.control (RobotModel.init 0 0 0 1 1) [(1, 2)] 10).1).2 =
      Real.arctan 2 ∧
    π / 4 < Real.arctan 2 ∧
    clip (clip (Real.arctan 2) (-(π / 4)) (π / 4)) (0 - π / 18 * 10)
      (0 + π / 18 * 10) = π / 4 := by
  have harctan : π / 4 < Real.arctan 2 := by
    rw [← Real.arctan_one]
    exact Real.arctan_strictMono (by norm_num)
  have harcpos : (0 : ℝ) < Real.arctan 2 := by
    rw [← Real.arctan_zero]
    exact Real.arctan_strictMono (by norm_num)
  have harclt : Real.arctan 2 < π / 2 := Real.arctan_lt_pi_div_two 2
  have hpi := Real.pi_pos
  have hfp : future_point (RobotModel.init 0 0 0 1 1) [(1, 2)] = (1, 2) := by
    refine future_point_single _ _ ?_
    show (0 : ℤ) ≤ dynamic_look_ahead (RobotModel.init 0 0 0 1 1).velocity
    have hv : (RobotModel.init 0 0 0 1 1).velocity = 0 := rfl
    rw [hv, look_ahead_of_zero]
    norm_num
  have hhe : calculate_heading_error (RobotModel.init 0 0 0 1 1) (1, 2) =
      Real.arctan 2 := by
    unfold calculate_heading_error
    dsimp only
    have hy : ((1, 2) : Pt).2 - (RobotModel.init 0 0 0 1 1).y = 2 := by
      norm_num [RobotModel.init]
    have hx : ((1, 2) : Pt).1 - (RobotModel.init 0 0 0 1 1).x = 1 := by
      norm_num [RobotModel.init]
    have hyaw : (RobotModel.init 0 0 0 1 1).yaw = 0 := rfl
    rw [hy, hx, hyaw, atan2_pos_x 2 1 one_pos]
    norm_num
    exact atan2_sin_cos _ (Real.neg_pi_div_two_lt_arctan 2) harclt
  have hraw : Controller.init.raw_steering (RobotModel.init 0 0 0 1 1) [(1, 2)] =
      Real.arctan 2 := by
    unfold Controller.raw_steering
    rw [hfp, cte_single, hhe, mul_zero,
      atan2_zero_pos _ (by norm_num [RobotModel.init, Controller.init]), add_zero]
  refine ⟨?_, harctan, ?_⟩
  · show clip (Controller.init.raw_steering (RobotModel.init 0 0 0 1 1) [(1, 2)])
      (Controller.init.previous_steering_angle -
        Controller.init.steering_rate_limit * 10)
      (Controller.init.previous_steering_angle +
        Controller.init.steering_rate_limit * 10) = Real.arctan 2
    rw [hraw]
    refine clip_eq_of_mem _ _ _ ?_ ?_
    · simp only [Controller.init]
      nlinarith
    · simp only [Controller.init]
      nlinarith
  · have hinner : clip (Real.arctan 2) (-(π / 4)) (π / 4) = π / 4 := by
      unfold clip
      rw [max_eq_left (by nlinarith), min_eq_right (by nlinarith)]
    rw [hinner]
    exact clip_eq_of_mem _ _ _ (by nlinarith) (by nlinarith)

theorem find?_flatMap {α β : Type} (l : List α) (f : α → List β) (p : β → Bool) :
    (l.flatMap f).find? p = l.findSome? fun a => (f a).find? p := by
  induction l with
  | nil => rfl
  | cons a rest ih =>
    rw [List.flatMap_cons, List.find?_append, ih]
    cases h : (f a).find? p <;> simp [List.findSome?_cons, h]

theorem findSome?_map_opt {α β γ : Type} (l : List α) (f : α → Option β) (g : β → γ) :
    (l.findSome? fun a => (f a).map g) = (l.findSome? f).map g := by
  induction l with
  | nil => rfl
  | cons a rest ih =>
    cases h : f a <;> simp [List.findSome?_cons, h, ih]

/-- C5: `check_collision` implements exactly the ordered first-trigger scan of
the claim: the four footprint corners in the fixed order front-left,
front-right, rear-right, rear-left, then the four edges' interpolated samples
in the same cyclic order; it reports the point of the first probe whose cell
is out of grid bounds (always a collision) or occupied, and reports no
collision exactly when no probe triggers. -/
theorem check_collision_eq_scan (g : Grid) (car : RobotModel) :
    check_collision g car = check_collision_scan g car := by
  unfold check_collision check_collision_scan probe_list
  rw [List.find?_append, List.find?_map]
  have hpred : ((fun pr => cell_blocked g (probe_cell pr).1 (probe_cell pr).2) ∘
      Probe.corner) = fun p : Pt => cell_blocked g (pyInt p.1) (pyInt p.2) := rfl
  rw [hpred]
  cases hc : (corners_of car).find? (fun p => cell_blocked g (pyInt p.1) (pyInt p.2)) with
  | some p => simp [probe_point]
  | none =>
    simp only [Option.map_none', Option.none_or]
    rw [find?_flatMap]
    have h2 : (fun se : Pt × Pt => ((seg_cells se.1 se.2).map Probe.sample).find?
        fun pr => cell_blocked g (probe_cell pr).1 (probe_cell pr).2)
        = fun se : Pt × Pt => (check_line_segment g se.1 se.2).map Probe.sample := by
      funext se
      rw [List.find?_map]
      rfl
    rw [h2, findSome?_map_opt, Option.map_map]
    rfl

/-- C9: per-tick precedence of `main`'s simulation loop: while `Running`, a
reported collision transitions to `CollisionDetected` at the reported point
without invoking the controller or the kinematic update; otherwise a
distance-to-goal below `goal_radius` transitions to `GoalReached`; otherwise
the controller and then the kinematic model run and simulated time advances
by `dt` with the state remaining `Running`; terminal states are absorbing. -/
theorem sim_tick_precedence (g : Grid) (path : List Pt) (goal : Pt)
    (goal_radius dt : ℝ) (robot : RobotModel) (ctrl : Controller) (t : ℝ) :
    (∀ p, check_collision g robot = some p →
      sim_tick g path goal goal_radius dt (.running robot ctrl t) = .collided p) ∧
    (check_collision g robot = none →
      distance_to_goal robot goal < goal_radius →
      sim_tick g path goal goal_radius dt (.running robot ctrl t) = .goal_reached) ∧
    (check_collision g robot = none →
      ¬ distance_to_goal robot goal < goal_radius →
      sim_tick g path goal goal_radius dt (.running robot ctrl t) =
        .running (robot.update ((ctrl.control robot path dt).1).1
            ((ctrl.control robot path dt).1).2 dt)
          (ctrl.control robot path dt).2 (t + dt)) ∧
    (∀ p, sim_tick g path goal goal_radius dt (.collided p) = .collided p) ∧
    sim_tick g path goal goal_radius dt .goal_reached = .goal_reached := by
  refine ⟨fun p hp => ?_, fun hn hd => ?_, fun hn hd => ?_, fun p => rfl, rfl⟩
  · simp [sim_tick, hp]
  · simp [sim_tick, hn, hd]
  · simp [sim_tick, hn, hd]

/-- C9 witness: a vehicle whose front-left corner lies outside a 3×3 grid is
stopped by the collision branch at that corner. -/
theorem sim_tick_precedence_witness :
    sim_tick ⟨3, 3, fun _ _ => 0⟩ [] (0, 0) 1 (1 / 10)
        (.running ⟨10, 10, 0, 0, 4, 4, 80, -20, 30, π / 4⟩ Controller.init 0) =
      .collided (12, 12) := by
  have hfl : corner_fl (⟨10, 10, 0, 0, 4, 4, 80, -20, 30, π / 4⟩ : RobotModel) =
      ((12 : ℝ), (12 : ℝ)) := by
    unfold corner_fl
    norm_num [Real.cos_zero, Real.sin_zero]
  have hpy : pyInt (12 : ℝ) = 12 := by
    unfold pyInt
    rw [if_pos (by norm_num)]
    norm_num
  have hcb : cell_blocked ⟨3, 3, fun _ _ => 0⟩ 12 12 = true := by
    unfold cell_blocked in_bounds
    norm_num
  have hcheck : check_collision ⟨3, 3, fun _ _ => 0⟩
      (⟨10, 10, 0, 0, 4, 4, 80, -20, 30, π / 4⟩ : RobotModel) =
      some ((12 : ℝ), (12 : ℝ)) := by
    unfold check_collision corners_of
    rw [List.find?_cons_of_pos _ (by rw [hfl]; dsimp only; rw [hpy]; exact hcb)]
    rw [hfl]
  exact (sim_tick_precedence ⟨3, 3, fun _ _ => 0⟩ [] (0, 0) 1 (1 / 10)
    (⟨10, 10, 0, 0, 4, 4, 80, -20, 30, π / 4⟩ : RobotModel) Controller.init 0).1
    (12, 12) hcheck

theorem norm2_nonneg (v : Pt) : 0 ≤ norm2 v := Real.sqrt_nonneg _

theorem norm2_smul (c : ℝ) (v : Pt) : norm2 (ptSmul c v) = |c| * norm2 v := by
  unfold norm2 ptSmul
  dsimp only
  rw [show (c * v.1) ^ 2 + (c * v.2) ^ 2 = c ^ 2 * (v.1 ^ 2 + v.2 ^ 2) by ring,
    Real.sqrt_mul (sq_nonneg c), Real.sqrt_sq_eq_abs]

/-- C8 amended: `interpolate_path` resamples each consecutive input pair
`(p, q)` by linear subdivision into `n = max(1, int(‖q-p‖/resolution))` equal
steps: the output is the head point followed by each pair's block of
subdivision points; within a block consecutive points are evenly spaced at
`‖q-p‖/n`, which lies in `[resolution, 2·resolution)` when
`‖q-p‖ ≥ resolution` and equals `‖q-p‖` otherwise — the spacing equals the
target resolution itself only when the segment length is an exact multiple. -/
theorem interpolate_path_subdivision (p q : Pt) (rest : List Pt) (res d : ℝ)
    (n : ℤ) (hres : 0 < res) (hd : d = norm2 (ptSub q p))
    (hn : n = max 1 (pyInt (d / res))) :
    interpolate_path (p :: q :: rest) res =
      p :: (seg_points p q res ++ interp_aux res q rest) ∧
    (seg_points p q res).length = n.toNat ∧
    (∀ j : ℕ, j < n.toNat → (seg_points p q res).getD j (0, 0) =
      ptAdd p (ptSmul (((j : ℝ) + 1) / (n : ℝ)) (ptSub q p))) ∧
    (∀ j : ℕ, j + 1 < n.toNat →
      norm2 (ptSub ((seg_points p q res).getD (j + 1) (0, 0))
        ((seg_points p q res).getD j (0, 0))) = d / (n : ℝ)) ∧
    norm2 (ptSub ((seg_points p q res).getD 0 (0, 0)) p) = d / (n : ℝ) ∧
    (res ≤ d → res ≤ d / (n : ℝ) ∧ d / (n : ℝ) < 2 * res) ∧
    (d < res → n = 1) := by
  have hn1 : (1 : ℤ) ≤ n := hn ▸ le_max_left 1 _
  have hnR : (0 : ℝ) < (n : ℝ) := by exact_mod_cast lt_of_lt_of_le one_pos hn1
  have hne : (n : ℝ) ≠ 0 := ne_of_gt hnR
  have hd0 : 0 ≤ d := hd ▸ norm2_nonneg _
  have hseg : seg_points p q res = (List.range n.toNat).map
      (fun j : ℕ => ptAdd p (ptSmul (((j : ℝ) + 1) / (n : ℝ)) (ptSub q p))) := by
    unfold seg_points
    dsimp only
    rw [← hd, ← hn]
  have key : ∀ j : ℕ, j < n.toNat → (seg_points p q res).getD j (0, 0) =
      ptAdd p (ptSmul (((j : ℝ) + 1) / (n : ℝ)) (ptSub q p)) := by
    intro j hj
    rw [hseg, List.getD_eq_getElem _ _ (by simpa using hj)]
    simp
  have hstep : ∀ j : ℕ, j + 1 < n.toNat →
      ptSub ((seg_points p q res).getD (j + 1) (0, 0))
        ((seg_points p q res).getD j (0, 0)) = ptSmul (1 / (n : ℝ)) (ptSub q p) := by
    intro j hj
    rw [key (j + 1) hj, key j (by omega)]
    unfold ptSub ptAdd ptSmul
    dsimp only
    simp only [Prod.mk.injEq]
    constructor
    · push_cast
      field_simp
      ring
    · push_cast
      field_simp
      ring
  have habs : norm2 (ptSmul (1 / (n : ℝ)) (ptSub q p)) = d / (n : ℝ) := by
    rw [norm2_smul, abs_of_nonneg (by positivity), ← hd, one_div, inv_mul_eq_div]
  refine ⟨rfl, by rw [hseg]; simp, key, ?_, ?_, ?_, ?_⟩
  · intro j hj
    rw [hstep j hj, habs]
  · have h0 : (0 : ℕ) < n.toNat := by omega
    rw [key 0 h0]
    rw [show ((((0 : ℕ) : ℝ) + 1) / (n : ℝ)) = 1 / (n : ℝ) by norm_num]
    have hsub : ptSub (ptAdd p (ptSmul (1 / (n : ℝ)) (ptSub q p))) p =
        ptSmul (1 / (n : ℝ)) (ptSub q p) := by
      unfold ptSub ptAdd ptSmul
      dsimp only
      simp only [Prod.mk.injEq]
      constructor <;> ring
    rw [hsub, habs]
  · intro hled
    have hx1 : (1 : ℝ) ≤ d / res := (one_le_div hres).mpr hled
    have hpy : pyInt (d / res) = ⌊d / res⌋ := if_pos (by linarith)
    have hfl1 : (1 : ℤ) ≤ ⌊d / res⌋ := by
      rw [Int.le_floor]
      exact_mod_cast hx1
    have hneq : n = ⌊d / res⌋ := by rw [hn, hpy, max_eq_right hfl1]
    have hle : (n : ℝ) ≤ d / res := by
      rw [hneq]
      exact_mod_cast Int.floor_le (d / res)
    have hlt : d / res < (n : ℝ) + 1 := by
      rw [hneq]
      exact_mod_cast Int.lt_floor_add_one (d / res)
    have hnr1 : (1 : ℝ) ≤ (n : ℝ) := by exact_mod_cast hn1
    constructor
    · rw [le_div_iff₀ hnR]
      have : (n : ℝ) * res ≤ d := by
        have := (le_div_iff₀ hres).mp hle
        linarith
      linarith
    · rw [div_lt_iff₀ hnR]
      have hdlt : d < ((n : ℝ) + 1) * res := by
        have := (div_lt_iff₀ hres).mp hlt
        linarith
      nlinarith
  · intro hlt
    have h0 : (0 : ℝ) ≤ d / res := by positivity
    have h1 : d / res < 1 := (div_lt_one hres).mpr hlt
    have hpy : pyInt (d / res) = ⌊d / res⌋ := if_pos h0
    have hfl : ⌊d / res⌋ = 0 := Int.floor_eq_zero_iff.mpr ⟨h0, h1⟩
    rw [hn, hpy, hfl]
    rfl

/-- C8 witness: the decomposition at a concrete two-point path with
resolution `0.5`. -/
theorem interpolate_path_subdivision_witness :
    (0 : ℝ) < 1 / 2 ∧
    interpolate_path [((0 : ℝ), (0 : ℝ)), (1, 0)] (1 / 2) =
      ((0 : ℝ), (0 : ℝ)) ::
        (seg_points (0, 0) (1, 0) (1 / 2) ++ interp_aux (1 / 2) (1, 0) []) :=
  ⟨by norm_num,
    (interpolate_path_subdivision (0, 0) (1, 0) [] (1 / 2)
      (norm2 (ptSub (1, 0) (0, 0)))
      (max 1 (pyInt (norm2 (ptSub (1, 0) (0, 0)) / (1 / 2))))
      (by norm_num) rfl rfl).1⟩

/-- C8 counterexample: for the input pair `(0,0), (3/4, 0)` at resolution
`0.5` the output is the pair itself, whose consecutive spacing is `3/4`, not
the target resolution `1/2` — subdivision counts are rounded down, so the
spacing is not exactly the fixed resolution. -/
theorem interpolate_path_resolution_cex :
    interpolate_path [((0 : ℝ), (0 : ℝ)), (3 / 4, 0)] (1 / 2) =
      [((0 : ℝ), (0 : ℝ)), (3 / 4, 0)] ∧
    norm2 (ptSub ((3 / 4 : ℝ), (0 : ℝ)) ((0 : ℝ), (0 : ℝ))) = 3 / 4 ∧
    (3 / 4 : ℝ) ≠ 1 / 2 := by
  have hd : norm2 (ptSub ((3 / 4 : ℝ), (0 : ℝ)) ((0 : ℝ), (0 : ℝ))) = 3 / 4 := by
    unfold norm2 ptSub
    dsimp only
    rw [show ((3 : ℝ) / 4 - 0) ^ 2 + ((0 : ℝ) - 0) ^ 2 = (3 / 4) ^ 2 by ring,
      Real.sqrt_sq (by norm_num)]
  have hpy : pyInt ((3 / 4 : ℝ) / (1 / 2)) = 1 := by
    unfold pyInt
    rw [if_pos (by norm_num), show ((3 / 4 : ℝ) / (1 / 2)) = 3 / 2 by norm_num]
    exact Int.floor_eq_iff.mpr (by constructor <;> norm_num)
  have hseg : seg_points ((0 : ℝ), (0 : ℝ)) (3 / 4, 0) (1 / 2) =
      [((3 : ℝ) / 4, (0 : ℝ))] := by
    unfold seg_points
    dsimp only
    rw [hd, hpy]
    norm_num [ptAdd, ptSmul, ptSub, List.range_succ]
  refine ⟨?_, hd, by norm_num⟩
  rw [show interpolate_path [((0 : ℝ), (0 : ℝ)), (3 / 4, 0)] (1 / 2) =
      ((0 : ℝ), (0 : ℝ)) ::
        (seg_points (0, 0) (3 / 4, 0) (1 / 2) ++ interp_aux (1 / 2) (3 / 4, 0) [])
      from rfl, hseg]
  rfl

theorem neighbors_adjacent (pl : PathPlanner) (p q : Node)
    (h : q ∈ get_neighbors pl p) : adjacent8 p q := by
  unfold get_neighbors at h
  rw [List.mem_filterMap] at h
  obtain ⟨d, hd, hq⟩ := h
  split_ifs at hq with hb
  · simp only [Option.some.injEq] at hq
    subst hq
    fin_cases hd <;>
      first
        | (simp [adjacent8, Prod.ext_iff]; omega)
        | simp [adjacent8, Prod.ext_iff]

theorem expand_neighbor_cf_inv (pl : PathPlanner) (goal current : Node)
    (st : AState) (nb : Node) (hinv : cf_inv pl st.cameFrom)
    (hadj : adjacent8 current nb) :
    cf_inv pl (expand_neighbor pl goal current st nb).cameFrom := by
  unfold expand_neighbor
  split_ifs with hvalid
  · dsimp only
    have hupd : cf_inv pl fun n => if n = nb then some current else st.cameFrom n := by
      intro n prev hcf
      dsimp only at hcf
      by_cases hn : n = nb
      · rw [if_pos hn] at hcf
        simp only [Option.some.injEq] at hcf
        subst hcf
        subst hn
        exact ⟨hvalid, hadj⟩
      · rw [if_neg hn] at hcf
        exact hinv n prev hcf
    cases hg : st.gScore nb with
    | none => exact hupd
    | some old =>
      dsimp only
      split_ifs with hlt
      · exact hupd
      · exact hinv
  · exact hinv

theorem foldl_expand_cf_inv (pl : PathPlanner) (goal current : Node)
    (l : List Node) (st : AState) (hinv : cf_inv pl st.cameFrom)
    (hadj : ∀ nb ∈ l, adjacent8 current nb) :
    cf_inv pl (List.foldl (expand_neighbor pl goal current) st l).cameFrom := by
  induction l generalizing st with
  | nil => exact hinv
  | cons nb rest ih =>
    rw [List.foldl_cons]
    exact ih _
      (expand_neighbor_cf_inv pl goal current st nb hinv (hadj nb (by simp)))
      fun m hm => hadj m (by simp [hm])

theorem search_loop_cf_inv (pl : PathPlanner) (goal : Node) (fuel : ℕ)
    (st : AState) (cf : Node → Option Node) (hinv : cf_inv pl st.cameFrom)
    (hres : search_loop pl goal fuel st = some (some cf)) : cf_inv pl cf := by
  induction fuel generalizing st with
  | zero => simp [search_loop] at hres
  | succ fuel ih =>
    rw [search_loop] at hres
    cases hpop : pop_min st.openSet with
    | none =>
      rw [hpop] at hres
      simp at hres
    | some pr =>
      obtain ⟨e, rest⟩ := pr
      rw [hpop] at hres
      dsimp only at hres
      split_ifs at hres with hvis hgoal
      · exact ih { st with openSet := rest } hinv hres
      · simp only [Option.some.injEq] at hres
        subst hres
        exact hinv
      · refine ih _ ?_ hres
        exact foldl_expand_cf_inv pl goal e.2 (get_neighbors pl e.2)
          { st with
            openSet := rest
            visited := fun n => if n = e.2 then true else st.visited n }
          hinv fun nb hnb => neighbors_adjacent pl e.2 nb hnb

theorem reconstruct_path_props (pl : PathPlanner) (fuel : ℕ)
    (cf : Node → Option Node) (start : Node) (hinv : cf_inv pl cf) :
    ∀ (current : Node) (raw : List Node),
      reconstruct_path fuel cf start current = some raw →
      raw ≠ [] ∧ raw.head? = some start ∧ raw.getLast? = some current ∧
        (∀ n ∈ raw, n ≠ start → pl.safe_mask n) ∧ List.Chain' adjacent8 raw := by
  induction fuel with
  | zero => intro current raw hrec; simp [reconstruct_path] at hrec
  | succ fuel ih =>
    intro current raw hrec
    rw [reconstruct_path] at hrec
    split_ifs at hrec with hcur
    · simp only [Option.some.injEq] at hrec
      subst hrec
      subst hcur
      refine ⟨by simp, by simp, by simp, by simp, by simp⟩
    · cases hcf : cf current with
      | none => rw [hcf] at hrec; simp at hrec
      | some prev =>
        rw [hcf] at hrec
        dsimp only at hrec
        cases hr : reconstruct_path fuel cf start prev with
        | none => rw [hr] at hrec; simp at hrec
        | some raw2 =>
          rw [hr] at hrec
          simp only [Option.map_some', Option.some.injEq] at hrec
          subst hrec
          obtain ⟨hne, hhead, hlast, hmem, hchain⟩ := ih prev raw2 hr
          refine ⟨by simp, ?_, by simp, ?_, ?_⟩
          · rcases raw2 with _ | ⟨a, t⟩
            · exact absurd rfl hne
            · simpa using hhead
          · intro n hn hns
            rcases List.mem_append.mp hn with hn2 | hn2
            · exact hmem n hn2 hns
            · have hn3 : n = current := by simpa using hn2
              subst hn3
              exact (hinv n prev hcf).1
          · rw [List.chain'_append]
            refine ⟨hchain, by simp, ?_⟩
            intro x hx y hy
            have hx2 : prev = x := by
              rw [hlast] at hx
              simpa using hx
            have hy2 : current = y := by simpa using hy
            subst hx2
            subst hy2
            exact (hinv current prev hcf).2

theorem find_raw_path_props_aux (pl : PathPlanner) (start goal : Node) (fuel : ℕ)
    (raw : List Node) (h : find_raw_path pl start goal fuel = some (some raw)) :
    raw ≠ [] ∧ raw.head? = some start ∧ raw.getLast? = some goal ∧
      (∀ n ∈ raw, n ≠ start → pl.safe_mask n) ∧ List.Chain' adjacent8 raw := by
  unfold find_raw_path at h
  cases hs : search_loop pl goal fuel (init_state start) with
  | none => rw [hs] at h; simp at h
  | some o =>
    cases o with
    | none => rw [hs] at h; simp at h
    | some cf =>
      rw [hs] at h
      dsimp only at h
      have hinv : cf_inv pl cf :=
        search_loop_cf_inv pl goal fuel (init_state start) cf
          (fun n prev hn => absurd hn (by simp [init_state])) hs
      cases hr : reconstruct_path fuel cf start goal with
      | none => rw [hr] at h; simp at h
      | some raw2 =>
        rw [hr] at h
        simp only [Option.some.injEq] at h
        subst h
        exact reconstruct_path_props pl fuel cf start hinv goal raw2 hr

/-- C4 amended: for every successful search, the raw (pre-interpolation,
pre-smoothing) node path is non-empty, runs from the requested start to the
requested goal, every point of it except possibly the start (which the
planner never validates) lies strictly within the SafeMask, and every pair of
consecutive raw points are 8-connected grid neighbours. -/
theorem find_raw_path_props (pl : PathPlanner) (start goal : Node) (fuel : ℕ)
    (raw : List Node) (h : find_raw_path pl start goal fuel = some (some raw)) :
    raw ≠ [] ∧ raw.head? = some start ∧ raw.getLast? = some goal ∧
      (∀ n ∈ raw, n ≠ start → pl.safe_mask n) ∧ List.Chain' adjacent8 raw :=
  find_raw_path_props_aux pl start goal fuel raw h

theorem find_raw_path_self (pl : PathPlanner) (s : Node) (fuel : ℕ)
    (h : 1 ≤ fuel) : find_raw_path pl s s fuel = some (some [s]) := by
  obtain ⟨m, rfl⟩ : ∃ m, fuel = m + 1 := ⟨fuel - 1, by omega⟩
  have hpop : pop_min [((0 : ℝ), s)] = some (((0 : ℝ), s), []) := by
    unfold pop_min
    rfl
  have hsearch : search_loop pl s (m + 1) (init_state s) =
      some (some fun _ => none) := by
    rw [search_loop]
    unfold init_state
    dsimp only
    rw [hpop]
    simp
  unfold find_raw_path
  rw [hsearch]
  dsimp only
  rw [reconstruct_path]
  simp

theorem find_path_self (spline : List Pt → List Pt) (pl : PathPlanner) (s : Node)
    (fuel : ℕ) (h : 1 ≤ fuel) :
    find_path spline pl s s fuel = some (some [nodePt s]) := by
  unfold find_path
  rw [find_raw_path_self pl s fuel h]
  simp only [Option.map_some']
  rw [show interpolate_path ([s].map nodePt) (1 / 2) = [nodePt s] from rfl]
  rw [show smooth_path spline [nodePt s] = [nodePt s] by unfold smooth_path; simp]

/-- C3 amended: the system performs no SafeMask precondition check on
`find_path`'s start and goal. The only start/goal validation that raises a
configuration error is `Track.set_start_point`/`set_goal_point`, which
rejects exactly the points lying on an occupied cell; `find_path` itself,
given a start equal to the goal, silently returns a single-point path whether
or not the cell is in the SafeMask, and a successful search with a goal
distinct from the start only ever certifies the goal (not the start) to be in
the SafeMask — unreachable off-mask goals yield a silent `None`. -/
theorem find_path_no_safemask_check :
    (∀ (m : Node → ℤ) (p : Node),
      (∃ e, set_start_point m p = Except.error e) ↔ m p = 1) ∧
    (∀ (spline : List Pt → List Pt) (pl : PathPlanner) (s : Node) (fuel : ℕ),
      1 ≤ fuel → find_path spline pl s s fuel = some (some [nodePt s])) ∧
    (∀ (spline : List Pt → List Pt) (pl : PathPlanner) (s g : Node) (fuel : ℕ)
      (path : List Pt), g ≠ s → find_path spline pl s g fuel = some (some path) →
      pl.safe_mask g) := by
  refine ⟨?_, fun spline pl s fuel h => find_path_self spline pl s fuel h, ?_⟩
  · intro m p
    unfold set_start_point
    split_ifs with hm
    · exact ⟨fun _ => hm, fun _ => ⟨_, rfl⟩⟩
    · constructor
      · rintro ⟨e, he⟩
        exact absurd he (by simp)
      · intro h2
        exact absurd h2 hm
  · intro spline pl s g fuel path hgs h
    unfold find_path at h
    cases hr : find_raw_path pl s g fuel with
    | none => rw [hr] at h; simp at h
    | some o =>
      cases o with
      | none => rw [hr] at h; simp at h
      | some raw =>
        have hprops := find_raw_path_props_aux pl s g fuel raw hr
        obtain ⟨hne, hhead, hlast, hmem, hchain⟩ := hprops
        have hg : g ∈ raw := by
          have hx : g ∈ raw.getLast? := Option.mem_def.mpr hlast
          obtain ⟨hne2, heq⟩ := List.mem_getLast?_eq_getLast hx
          rw [heq]
          exact List.getLast_mem hne2
        exact hmem g hg hgs

/-- C3 witness: the single-point path returned for `start = goal` on the
concrete planner, and the `Track` validation equivalence at a concrete map. -/
theorem find_path_no_safemask_check_witness :
    (1 : ℕ) ≤ 3 ∧ find_path id cpl (1, 1) (1, 1) 3 = some (some [nodePt (1, 1)]) :=
  ⟨by norm_num, find_path_no_safemask_check.2.1 id cpl (1, 1) 3 (by norm_num)⟩

theorem cpl_not_safe_origin : ¬ cpl.safe_mask (0, 0) := by
  unfold PathPlanner.safe_mask cpl
  dsimp only
  push_neg
  have h2 : Real.sqrt ((((0 : ℤ) : ℝ) - 1) ^ 2 + (((0 : ℤ) : ℝ) - 1) ^ 2) ≤ 11 := by
    rw [show ((((0 : ℤ) : ℝ) - 1) ^ 2 + (((0 : ℤ) : ℝ) - 1) ^ 2) = 2 by push_cast; ring]
    calc Real.sqrt 2 ≤ Real.sqrt 121 := Real.sqrt_le_sqrt (by norm_num)
      _ = 11 := by
          rw [show (121 : ℝ) = 11 ^ 2 by norm_num, Real.sqrt_sq (by norm_num)]
  calc Real.sqrt ((((0, 0) : Node).1 - 1 : ℝ) ^ 2 + (((0, 0) : Node).2 - 1 : ℝ) ^ 2)
      ≤ 11 := by push_cast at h2 ⊢; exact h2
    _ ≤ 5 + 6 := by norm_num

/-- C3 counterexample: the cell `(0, 0)` lies outside the SafeMask of the
concrete planner, yet `find_path` with start = goal = `(0, 0)` silently
returns a path instead of signalling a configuration error. -/
theorem find_path_unsafe_start_cex :
    ¬ cpl.safe_mask (0, 0) ∧
    find_path id cpl (0, 0) (0, 0) 2 = some (some [nodePt (0, 0)]) :=
  ⟨cpl_not_safe_origin, find_path_self id cpl (0, 0) 2 (by norm_num)⟩

/-- C4 counterexample: a successful search whose raw node path contains a
point (the start, equal to the goal here) lying outside the SafeMask: not
every raw path point lies strictly within the SafeMask. -/
theorem find_raw_path_unsafe_point_cex :
    find_raw_path cpl (0, 0) (0, 0) 2 = some (some [((0 : ℤ), (0 : ℤ))]) ∧
    ((0 : ℤ), (0 : ℤ)) ∈ [((0 : ℤ), (0 : ℤ))] ∧ ¬ cpl.safe_mask (0, 0) :=
  ⟨find_raw_path_self cpl (0, 0) 2 (by norm_num), by simp, cpl_not_safe_origin⟩

/-- C4 witness: a successful concrete search, with the raw-path properties
instantiated. -/
theorem find_raw_path_props_witness :
    find_raw_path cpl (1, 1) (1, 1) 2 = some (some [((1 : ℤ), (1 : ℤ))]) ∧
    ([((1 : ℤ), (1 : ℤ))] ≠ [] ∧
      [((1 : ℤ), (1 : ℤ))].head? = some (1, 1) ∧
      [((1 : ℤ), (1 : ℤ))].getLast? = some (1, 1) ∧
      (∀ n ∈ [((1 : ℤ), (1 : ℤ))], n ≠ (1, 1) → cpl.safe_mask n) ∧
      List.Chain' adjacent8 [((1 : ℤ), (1 : ℤ))]) :=
  ⟨find_raw_path_self cpl (1, 1) 2 (by norm_num),
    find_raw_path_props cpl (1, 1) (1, 1) 2 [((1 : ℤ), (1 : ℤ))]
      (find_raw_path_self cpl (1, 1) 2 (by norm_num))⟩
